import Mathlib

/-!
Shallow embedding of the sc2mp3 browser extension's track-resolution and
download pipeline (content script: `pickTranscoding`, `getTrackName`,
`downloadTrackTranscoding`, `downloadNative`, `downloadTrack`,
`scrapeClientId`, `getCookie`, `fetchJson`/`fetchAuthorizedJson`).

Network and browser effects are modelled by an explicit environment `Env`
supplying the responses the remote API would give, and each download
function returns its result together with the list of observable events
(outgoing API requests with their auth token and query, media-byte
fetches, and local saves) it performs, in order.
-/

namespace Sc2mp3

/-- Characters matched by the regex class `[A-Za-z0-9]`. -/
def isAlnumChar (c : Char) : Bool :=
  (('A' ≤ c && c ≤ 'Z') || ('a' ≤ c && c ≤ 'z') || ('0' ≤ c && c ≤ '9'))

/-- Characters matched by the quote classes of the scraping regex: a double or a single quote. -/
def isQuoteChar (c : Char) : Bool :=
  c = '"' || c = '\''

/-- Whether `pat` occurs at the head of `s` (shared helper of the regex embeddings). -/
def startsWithKey : List Char → List Char → Bool
  | [], _ => true
  | _ :: _, [] => false
  | k :: ks, c :: cs => k = c && startsWithKey ks cs

/-- Whether `pat` occurs somewhere in `s` (the search behind JS `String.includes`). -/
def listContains (pat : List Char) : List Char → Bool
  | [] => startsWithKey pat []
  | c :: rest => startsWithKey pat (c :: rest) || listContains pat rest

/-- JS `s.includes(sub)`. -/
def jsIncludes (s sub : String) : Bool :=
  listContains sub.toList s.toList

/-- Helper for `jsLastIndexOf`: fold over the characters keeping the index of
the last occurrence seen so far. -/
def lastIndexOfAux (c : Char) : List Char → Nat → Int → Int
  | [], _, acc => acc
  | x :: xs, i, acc => lastIndexOfAux c xs (i + 1) (if x = c then Int.ofNat i else acc)

/-- JS `s.lastIndexOf(c)`: index of the last occurrence of `c`, or `-1`. -/
def jsLastIndexOf (s : String) (c : Char) : Int :=
  lastIndexOfAux c s.toList 0 (-1)

/-- JS `s.substring(i)` for a non-negative start index. -/
def jsSubstringFrom (s : String) (i : Int) : String :=
  String.mk (s.toList.drop i.toNat)

/-- Embedding of `path.substring(path.lastIndexOf(".") + 1)` — the extension part of the
final URL's pathname (the whole path when it has no dot). -/
def extensionOf (path : String) : String :=
  jsSubstringFrom path (jsLastIndexOf path '.' + 1)

/-- The `format` field of a transcoding (only `protocol` is consulted). -/
structure Format where
  protocol : String
  deriving DecidableEq, Repr

/-- One entry of `trackObj["media"]["transcodings"]`. -/
structure Transcoding where
  format : Format
  quality : String
  url : String
  deriving DecidableEq, Repr

/-- The `media` field of the track object. -/
structure Media where
  transcodings : List Transcoding
  deriving DecidableEq, Repr

/-- The `user` field of the track object (only `username` is consulted). -/
structure User where
  username : String
  deriving DecidableEq, Repr

/-- The track object returned by the resolve API call, restricted to the
fields the content script reads. -/
structure Track where
  id : Nat
  title : String
  user : User
  downloadable : Bool
  has_downloads_left : Bool
  media : Media
  deriving DecidableEq, Repr

/-- The browser's parse of a URL string: the raw string (`href`) together
with its `pathname` component (`new URL(url).pathname`). -/
structure Url where
  href : String
  pathname : String
  deriving DecidableEq, Repr

/-- The loop body of `pickTranscoding` over the transcodings list: skip
entries whose `format.protocol` is not `"progressive"`, return the first
remaining entry whose `quality` matches. -/
def pickFrom (quality : String) : List Transcoding → Option Transcoding
  | [] => none
  | tc :: rest =>
    if tc.format.protocol ≠ "progressive" then pickFrom quality rest
    else if tc.quality = quality then some tc
    else pickFrom quality rest

/-- Embedding of `pickTranscoding(trackObj, quality)`. -/
def pickTranscoding (trackObj : Track) (quality : String) : Option Transcoding :=
  pickFrom quality trackObj.media.transcodings

/-- The selection `pickTranscoding(trackObj, "hq") || pickTranscoding(trackObj, "sq")`
(lines 102-104 of the content script). -/
def selectTranscoding (trackObj : Track) : Option Transcoding :=
  match pickTranscoding trackObj "hq" with
  | some tc => some tc
  | none => pickTranscoding trackObj "sq"

/-- Embedding of `getTrackName(trackObj)`: prepend the uploader's username unless the
title already contains `" - "`. -/
def getTrackName (trackObj : Track) : String :=
  let name := trackObj.title
  if !(jsIncludes name " - ") then
    trackObj.user.username ++ " - " ++ name
  else
    name

/-- The filename built in `downloadTrackTranscoding` (lines 115-118):
`` `${name}.${extension}` `` where `extension` comes from the final URL's
pathname. -/
def trackFilename (trackObj : Track) (finalUrl : Url) : String :=
  getTrackName trackObj ++ "." ++ extensionOf finalUrl.pathname

/-- Errors the content script can throw, one constructor per throw site:
`requestFailed url status` is `fetchJson`'s generic
"Request to ... failed with result ..." error for a non-2xx response;
`noEligibleRendition` is "Failed to find a valid transcoding";
`credentialNotFound` is "Could not get client_id value from current page";
`mediaFetchNetworkError` is a rejection of the raw media-byte `fetch`. -/
inductive JsError where
  | requestFailed (url : String) (status : Nat)
  | noEligibleRendition
  | credentialNotFound
  | mediaFetchNetworkError (url : String)
  deriving DecidableEq, Repr

/-- Observable events of a download action, in program order:
`apiRequest url authToken query` is a `fetchAuthorizedJson` call (the
`Authorization: OAuth` header is present iff `authToken` is `some`);
`mediaFetch url` is the raw `fetch(url)` of the media bytes;
`saveBlob fromUrl filename` is `downloadUrl(URL.createObjectURL(blob), filename)`
for a blob fetched from `fromUrl`;
`saveUrl url` is `downloadUrl(url)` with no filename. -/
inductive Event where
  | apiRequest (url : String) (authToken : Option String) (query : List (String × String))
  | mediaFetch (url : String)
  | saveBlob (fromUrl : String) (filename : String)
  | saveUrl (url : String)
  deriving DecidableEq, Repr

/-- The browser / network environment of one download action:
`clientId` is the global scraped client ID; `enableHQ` the stored
`"enableHQ"` preference; `cookieStore` the value of `document.cookie`;
`resolveResp u` the parsed JSON the resolve endpoint returns for query URL
`u` (`Except.error status` for a non-2xx response); `transcodingResp u` the
final URL carried by the metadata document served at transcoding URL `u`
(as parsed by the browser); `nativeResp id` the `redirectUri` served by the
native download endpoint for track `id`; `mediaOk u` whether the raw
`fetch(u)` of the media bytes succeeds. -/
structure Env where
  clientId : String
  enableHQ : Bool
  cookieStore : String
  resolveResp : String → Except Nat Track
  transcodingResp : String → Except Nat Url
  nativeResp : Nat → Except Nat String
  mediaOk : String → Bool

/-- The tail of the cookie regex after its start-or-semicolon alternation, matched at
the current position — skip spaces, require `key` then `=`, capture the
maximal nonempty run of non-`;` characters. -/
def cookieTailMatch (key : List Char) (s : List Char) : Option (List Char) :=
  let s := s.dropWhile (fun c => c = ' ')
  if startsWithKey key s then
    match s.drop key.length with
    | '=' :: rest =>
      let v := rest.takeWhile (fun c => c ≠ ';')
      if v.isEmpty then none else some v
    | _ => none
  else none

/-- Scan for the semicolon-anchored alternative of the cookie regex: the first
`;` whose tail matches ` *key=([^;]+)`. -/
def findCookieFrom (key : List Char) : List Char → Option (List Char)
  | [] => none
  | c :: rest =>
    if c = ';' then
      match cookieTailMatch key rest with
      | some v => some v
      | none => findCookieFrom key rest
    else findCookieFrom key rest

/-- Embedding of `getCookie(key)`: first match of the cookie regex in the cookie
store, returning the captured value, or `none` when the cookie is unset. -/
def getCookie (key : String) (cookieStore : String) : Option String :=
  match cookieTailMatch key.toList cookieStore.toList with
  | some v => some (String.mk v)
  | none => (findCookieFrom key.toList cookieStore.toList).map String.mk

/-- The auth token `downloadTrack` computes (lines 143-147): read the
`oauth_token` cookie only when the `enableHQ` preference is set. -/
def resolveAuthToken (env : Env) : Option String :=
  if env.enableHQ then getCookie "oauth_token" env.cookieStore else none

/-- URL of the track-resolution endpoint. -/
def resolveEndpoint : String := "https://api-v2.soundcloud.com/resolve"

/-- URL of the native download endpoint for a track id:
`` `https://api-v2.soundcloud.com/tracks/${trackId}/download` ``. -/
def nativeEndpoint (trackId : Nat) : String :=
  "https://api-v2.soundcloud.com/tracks/" ++ toString trackId ++ "/download"

/-- Embedding of `downloadNative(trackId)`: one `fetchAuthorizedJson` with a `null`
auth token and only the `client_id` query parameter, then
`downloadUrl(json["redirectUri"])`. -/
def downloadNative (env : Env) (trackId : Nat) : Except JsError Unit × List Event :=
  let url := nativeEndpoint trackId
  let ev := Event.apiRequest url none [("client_id", env.clientId)]
  match env.nativeResp trackId with
  | .error status => (.error (.requestFailed url status), [ev])
  | .ok redirectUri => (.ok (), [ev, .saveUrl redirectUri])

/-- Embedding of `downloadTrackTranscoding(trackObj, authToken)`: select a transcoding
(HQ preferred), resolve its URL through one more authorized request, build
the filename, fetch the media bytes and save them as a blob. -/
def downloadTrackTranscoding (env : Env) (trackObj : Track) (authToken : Option String) :
    Except JsError Unit × List Event :=
  match selectTranscoding trackObj with
  | none => (.error .noEligibleRendition, [])
  | some transcoding =>
    let ev1 := Event.apiRequest transcoding.url authToken [("client_id", env.clientId)]
    match env.transcodingResp transcoding.url with
    | .error status => (.error (.requestFailed transcoding.url status), [ev1])
    | .ok url =>
      let filename := trackFilename trackObj url
      let ev2 := Event.mediaFetch url.href
      if env.mediaOk url.href then
        (.ok (), [ev1, ev2, .saveBlob url.href filename])
      else
        (.error (.mediaFetchNetworkError url.href), [ev1, ev2])

/-- Embedding of `downloadTrack(trackUrl)`: read the auth cookie when HQ is enabled,
resolve the track URL to a track object, then either replicate the native
download or fall through to the transcoding path. -/
def downloadTrack (env : Env) (trackUrl : String) : Except JsError Unit × List Event :=
  let authToken := resolveAuthToken env
  let ev0 := Event.apiRequest resolveEndpoint authToken
    [("client_id", env.clientId), ("url", trackUrl)]
  match env.resolveResp trackUrl with
  | .error status => (.error (.requestFailed resolveEndpoint status), [ev0])
  | .ok trackObj =>
    if trackObj.downloadable && trackObj.has_downloads_left then
      let p := downloadNative env trackObj.id
      (p.1, ev0 :: p.2)
    else
      let p := downloadTrackTranscoding env trackObj authToken
      (p.1, ev0 :: p.2)

/-- A `<script>` element of the host page: its `src` attribute and the text
the browser obtains by fetching it (`none` when the fetch rejects). -/
structure Script where
  src : String
  fetchResult : Option String
  deriving DecidableEq, Repr

/-- The fixed part `client_id:` of the scraping regex. -/
def clientIdKey : List Char := "client_id:".toList

/-- One attempted match of the client-ID regex at the head of the character
list: the literal key, a quote, exactly 32 alphanumeric characters, a
quote (the two quotes need not agree, as in the source regex). -/
def tryClientIdAt (s : List Char) : Option String :=
  if startsWithKey clientIdKey s then
    match s.drop clientIdKey.length with
    | q :: rest =>
      if isQuoteChar q then
        let tok := rest.take 32
        if tok.length = 32 && tok.all isAlnumChar then
          match rest.drop 32 with
          | q2 :: _ => if isQuoteChar q2 then some (String.mk tok) else none
          | [] => none
        else none
      else none
    | [] => none
  else none

/-- Leftmost match of the client-ID regex in a script's source text. -/
def findClientId : List Char → Option String
  | [] => none
  | c :: rest =>
    match tryClientIdAt (c :: rest) with
    | some tok => some tok
    | none => findClientId rest

/-- Embedding of `scrapeClientId()`: walk the page's scripts in order, skip inline
scripts and failed fetches, return the first regex match, and throw when
no script yields one. -/
def scrapeClientId : List Script → Except JsError String
  | [] => .error .credentialNotFound
  | script :: rest =>
    if script.src = "" then scrapeClientId rest
    else
      match script.fetchResult with
      | none => scrapeClientId rest
      | some src =>
        match findClientId src.toList with
        | some tok => .ok tok
        | none => scrapeClientId rest

/-- The token a single script contributes, written from the spec's words
("enumerate external script resources ...; for each, fetch its text and
search for the pattern"): inline scripts and failed fetches contribute
nothing; otherwise the first pattern match in the text. -/
def scriptToken (script : Script) : Option String :=
  if script.src = "" then none
  else script.fetchResult.bind (fun text => findClientId text.toList)

/-- Count how many `mediaFetch` events for the given URL a trace holds. -/
def countMediaFetch (url : String) (evs : List Event) : Nat :=
  evs.countP (fun ev =>
    match ev with
    | .mediaFetch u => u = url
    | _ => false)

/-- True when no API request in the trace carries an auth token. -/
def eventsAuthFree (evs : List Event) : Bool :=
  evs.all (fun ev =>
    match ev with
    | .apiRequest _ tok _ => tok.isNone
    | _ => true)

lemma pickFrom_eq_some {q : String} {tc : Transcoding} :
    ∀ {l : List Transcoding}, pickFrom q l = some tc →
      tc.format.protocol = "progressive" ∧ tc.quality = q := by
  intro l
  induction l with
  | nil => intro h; simp [pickFrom] at h
  | cons hd tl ih =>
    intro h
    by_cases hp : hd.format.protocol = "progressive"
    · by_cases hq : hd.quality = q
      · simp [pickFrom, hp, hq] at h
        exact ⟨h ▸ hp, h ▸ hq⟩
      · simp [pickFrom, hp, hq] at h
        exact ih h
    · simp [pickFrom, hp] at h
      exact ih h

lemma pickFrom_eq_none {q : String} {l : List Transcoding}
    (h : ∀ tc ∈ l, tc.format.protocol ≠ "progressive") : pickFrom q l = none := by
  induction l with
  | nil => rfl
  | cons hd tl ih =>
    have hhd : hd.format.protocol ≠ "progressive" := h hd (List.mem_cons_self hd tl)
    simp [pickFrom, hhd]
    exact ih (fun tc htc => h tc (List.mem_cons_of_mem hd htc))

lemma pickFrom_isSome {q : String} {l : List Transcoding}
    (h : ∃ tc ∈ l, tc.format.protocol = "progressive" ∧ tc.quality = q) :
    (pickFrom q l).isSome = true := by
  induction l with
  | nil => obtain ⟨tc, htc, -⟩ := h; cases htc
  | cons hd tl ih =>
    by_cases hp : hd.format.protocol = "progressive"
    · by_cases hq : hd.quality = q
      · simp [pickFrom, hp, hq]
      · simp [pickFrom, hp, hq]
        apply ih
        obtain ⟨tc, htc, hptc, hqtc⟩ := h
        rcases List.mem_cons.mp htc with heq | hmem
        · exact absurd (heq ▸ hqtc) hq
        · exact ⟨tc, hmem, hptc, hqtc⟩
    · simp [pickFrom, hp]
      apply ih
      obtain ⟨tc, htc, hptc, hqtc⟩ := h
      rcases List.mem_cons.mp htc with heq | hmem
      · exact absurd (heq ▸ hptc) hp
      · exact ⟨tc, hmem, hptc, hqtc⟩

lemma selectTranscoding_eq_none {trackObj : Track}
    (h : ∀ tc ∈ trackObj.media.transcodings, tc.format.protocol ≠ "progressive") :
    selectTranscoding trackObj = none := by
  unfold selectTranscoding pickTranscoding
  rw [pickFrom_eq_none h, pickFrom_eq_none h]

/-- C5: `pickTranscoding` returns either `none` or a transcoding whose
format protocol is `"progressive"` and whose quality equals the requested
quality; a segmented-streaming rendition is never returned. -/
theorem pickTranscoding_only_progressive (trackObj : Track) (quality : String)
    (tc : Transcoding) (h : pickTranscoding trackObj quality = some tc) :
    tc.format.protocol = "progressive" ∧ tc.quality = quality :=
  pickFrom_eq_some h

/-- Concrete track used by several witnesses: a streaming HQ rendition
followed by a progressive SQ rendition. -/
def sampleTrackSq : Track :=
  { id := 11
    title := "Departure Remix"
    user := { username := "choicescarf" }
    downloadable := false
    has_downloads_left := false
    media := { transcodings :=
      [ { format := { protocol := "hls" }, quality := "hq", url := "https://api/t1" }
      , { format := { protocol := "progressive" }, quality := "sq", url := "https://api/t2" } ] } }

theorem pickTranscoding_only_progressive_witness :
    pickTranscoding sampleTrackSq "sq" =
      some { format := { protocol := "progressive" }, quality := "sq", url := "https://api/t2" } ∧
    ({ format := { protocol := "progressive" }, quality := "sq",
        url := "https://api/t2" } : Transcoding).format.protocol = "progressive" ∧
    ({ format := { protocol := "progressive" }, quality := "sq",
        url := "https://api/t2" } : Transcoding).quality = "sq" :=
  ⟨rfl, pickTranscoding_only_progressive sampleTrackSq "sq" _ rfl⟩

/-- C4: when the transcodings contain both a progressive HQ and a
progressive SQ rendition, the selection made by `downloadTrackTranscoding`
is a progressive HQ rendition (and, being a pure function of the track, it
is deterministic). -/
theorem hq_preferred_over_sq (trackObj : Track) (tchq tcsq : Transcoding)
    (hhq : tchq ∈ trackObj.media.transcodings)
    (hhqp : tchq.format.protocol = "progressive") (hhqq : tchq.quality = "hq")
    (hsq : tcsq ∈ trackObj.media.transcodings)
    (hsqp : tcsq.format.protocol = "progressive") (hsqq : tcsq.quality = "sq") :
    (selectTranscoding trackObj).map (fun tc => (tc.format.protocol, tc.quality)) =
      some ("progressive", "hq") := by
  have hsome : (pickTranscoding trackObj "hq").isSome = true :=
    pickFrom_isSome ⟨tchq, hhq, hhqp, hhqq⟩
  obtain ⟨tc, htc⟩ := Option.isSome_iff_exists.mp hsome
  obtain ⟨hp, hq⟩ := pickFrom_eq_some htc
  unfold selectTranscoding
  rw [htc]
  simp [hp, hq]

/-- Concrete track with both a progressive HQ and a progressive SQ
rendition, used by the C4 witness. -/
def sampleTrackBoth : Track :=
  { id := 12
    title := "Both"
    user := { username := "u" }
    downloadable := false
    has_downloads_left := false
    media := { transcodings :=
      [ { format := { protocol := "hls" }, quality := "hq", url := "https://api/h0" }
      , { format := { protocol := "progressive" }, quality := "sq", url := "https://api/s1" }
      , { format := { protocol := "progressive" }, quality := "hq", url := "https://api/h1" } ] } }

/-- The progressive HQ entry of `sampleTrackBoth`. -/
def sampleTcHq : Transcoding :=
  { format := { protocol := "progressive" }, quality := "hq", url := "https://api/h1" }

/-- The progressive SQ entry of `sampleTrackBoth`. -/
def sampleTcSq : Transcoding :=
  { format := { protocol := "progressive" }, quality := "sq", url := "https://api/s1" }

theorem hq_preferred_over_sq_witness :
    sampleTcHq ∈ sampleTrackBoth.media.transcodings ∧
    sampleTcSq ∈ sampleTrackBoth.media.transcodings ∧
    (selectTranscoding sampleTrackBoth).map (fun tc => (tc.format.protocol, tc.quality)) =
      some ("progressive", "hq") :=
  ⟨by decide, by decide,
    hq_preferred_over_sq sampleTrackBoth sampleTcHq sampleTcSq (by decide) rfl rfl
      (by decide) rfl rfl⟩

/-- C2: a track whose transcodings contain no progressive rendition makes
`downloadTrackTranscoding` fail with the no-eligible-rendition error (the
throw "Failed to find a valid transcoding"), performing no request, no
matter how many streaming renditions are present. -/
theorem no_progressive_fails (env : Env) (trackObj : Track) (authToken : Option String)
    (h : trackObj.media.transcodings.all
      (fun tc => tc.format.protocol != "progressive") = true) :
    downloadTrackTranscoding env trackObj authToken =
      (Except.error JsError.noEligibleRendition, []) := by
  have h' : ∀ tc ∈ trackObj.media.transcodings, tc.format.protocol ≠ "progressive" := by
    intro tc htc
    have := List.all_eq_true.mp h tc htc
    simpa using this
  unfold downloadTrackTranscoding
  rw [selectTranscoding_eq_none h']

/-- Concrete track with only streaming renditions, used by the C2 witness. -/
def sampleTrackHlsOnly : Track :=
  { id := 13
    title := "Streams"
    user := { username := "u" }
    downloadable := false
    has_downloads_left := false
    media := { transcodings :=
      [ { format := { protocol := "hls" }, quality := "hq", url := "https://api/h2" }
      , { format := { protocol := "hls" }, quality := "sq", url := "https://api/s2" } ] } }

/-- Environment used by several witnesses. -/
def sampleEnv : Env :=
  { clientId := "ABCDEFGHIJKLMNOPQRSTUVWXYZabcdef"
    enableHQ := false
    cookieStore := "oauth_token=SECRET"
    resolveResp := fun _ => Except.ok sampleTrackSq
    transcodingResp := fun _ =>
      Except.ok { href := "https://cdn/x.mp3", pathname := "/x.mp3" }
    nativeResp := fun _ => Except.ok "https://cdn/native"
    mediaOk := fun _ => true }

theorem no_progressive_fails_witness :
    sampleTrackHlsOnly.media.transcodings.all
      (fun tc => tc.format.protocol != "progressive") = true ∧
    downloadTrackTranscoding sampleEnv sampleTrackHlsOnly none =
      (Except.error JsError.noEligibleRendition, []) :=
  ⟨by decide, no_progressive_fails sampleEnv sampleTrackHlsOnly none (by decide)⟩

/-- C3: the filename saved by `downloadTrackTranscoding` is the title plus
extension when the title contains `" - "`, and `"<uploader> - <title>"`
plus extension otherwise. -/
theorem filename_heuristic (env : Env) (trackObj : Track) (authToken : Option String)
    (tc : Transcoding) (fu : Url)
    (hpick : selectTranscoding trackObj = some tc)
    (hresp : env.transcodingResp tc.url = Except.ok fu)
    (hok : env.mediaOk fu.href = true) :
    (downloadTrackTranscoding env trackObj authToken).2 =
      [ Event.apiRequest tc.url authToken [("client_id", env.clientId)]
      , Event.mediaFetch fu.href
      , Event.saveBlob fu.href
          ((if jsIncludes trackObj.title " - " then trackObj.title
            else trackObj.user.username ++ " - " ++ trackObj.title)
            ++ "." ++ extensionOf fu.pathname) ] := by
  simp only [downloadTrackTranscoding, hpick, hresp, hok, if_true]
  cases hsep : jsIncludes trackObj.title " - " <;>
    simp [trackFilename, getTrackName, hsep]

/-- The final URL served by `sampleEnv.transcodingResp`. -/
def sampleFinalUrl : Url := { href := "https://cdn/x.mp3", pathname := "/x.mp3" }

/-- The progressive SQ entry of `sampleTrackSq`. -/
def sampleTcSq2 : Transcoding :=
  { format := { protocol := "progressive" }, quality := "sq", url := "https://api/t2" }

theorem filename_heuristic_witness :
    selectTranscoding sampleTrackSq = some sampleTcSq2 ∧
    sampleEnv.transcodingResp sampleTcSq2.url = Except.ok sampleFinalUrl ∧
    sampleEnv.mediaOk sampleFinalUrl.href = true ∧
    (downloadTrackTranscoding sampleEnv sampleTrackSq none).2 =
      [ Event.apiRequest sampleTcSq2.url none [("client_id", sampleEnv.clientId)]
      , Event.mediaFetch sampleFinalUrl.href
      , Event.saveBlob sampleFinalUrl.href
          ((if jsIncludes sampleTrackSq.title " - " then sampleTrackSq.title
            else sampleTrackSq.user.username ++ " - " ++ sampleTrackSq.title)
            ++ "." ++ extensionOf sampleFinalUrl.pathname) ] :=
  ⟨rfl, rfl, rfl,
    filename_heuristic sampleEnv sampleTrackSq none sampleTcSq2 sampleFinalUrl rfl rfl rfl⟩

/-- C1: when the resolved track has both `downloadable` and
`has_downloads_left` set, `downloadTrack` is exactly the resolve request
followed by the native path (`downloadNative` on the track's id), and its
outcome does not change when the track's transcodings are replaced by any
other list. -/
theorem native_path_taken (env : Env) (trackUrl : String) (trackObj : Track)
    (ts : List Transcoding)
    (hres : env.resolveResp trackUrl = Except.ok trackObj)
    (hdl : trackObj.downloadable = true)
    (hleft : trackObj.has_downloads_left = true) :
    downloadTrack env trackUrl =
      ((downloadNative env trackObj.id).1,
        Event.apiRequest resolveEndpoint (resolveAuthToken env)
          [("client_id", env.clientId), ("url", trackUrl)] ::
          (downloadNative env trackObj.id).2) ∧
    downloadTrack
      { env with resolveResp := fun u =>
          if u = trackUrl then
            Except.ok { trackObj with media := { transcodings := ts } }
          else env.resolveResp u } trackUrl
      = downloadTrack env trackUrl := by
  constructor
  · simp [downloadTrack, hres, hdl, hleft]
  · simp [downloadTrack, hres, hdl, hleft, resolveAuthToken, downloadNative]

/-- Concrete natively-downloadable track for the C1/C10 witnesses. -/
def sampleTrackNative : Track :=
  { id := 7
    title := "DJ Snake - Night Drive"
    user := { username := "dj" }
    downloadable := true
    has_downloads_left := true
    media := { transcodings := [] } }

/-- Environment resolving to a natively-downloadable track. -/
def sampleEnvNative : Env :=
  { clientId := "ABCDEFGHIJKLMNOPQRSTUVWXYZabcdef"
    enableHQ := false
    cookieStore := ""
    resolveResp := fun _ => Except.ok sampleTrackNative
    transcodingResp := fun _ => Except.error 404
    nativeResp := fun _ => Except.ok "https://cdn/native"
    mediaOk := fun _ => true }

/-- Sample page URL resolved by the witnesses. -/
def samplePageUrl : String := "https://soundcloud.com/dj/night-drive"

/-- Variant of `sampleTrackNative` with its transcodings replaced, for the C1 witness. -/
def sampleTrackNativeAlt : Track :=
  { sampleTrackNative with media := { transcodings := [sampleTcHq] } }

theorem native_path_taken_witness :
    sampleEnvNative.resolveResp samplePageUrl = Except.ok sampleTrackNative ∧
    sampleTrackNative.downloadable = true ∧
    sampleTrackNative.has_downloads_left = true ∧
    (downloadTrack sampleEnvNative samplePageUrl =
      ((downloadNative sampleEnvNative sampleTrackNative.id).1,
        Event.apiRequest resolveEndpoint (resolveAuthToken sampleEnvNative)
          [("client_id", sampleEnvNative.clientId), ("url", samplePageUrl)] ::
          (downloadNative sampleEnvNative sampleTrackNative.id).2) ∧
    downloadTrack
      { sampleEnvNative with resolveResp := fun u =>
          if u = samplePageUrl then Except.ok sampleTrackNativeAlt
          else sampleEnvNative.resolveResp u } samplePageUrl
      = downloadTrack sampleEnvNative samplePageUrl) :=
  ⟨rfl, rfl, rfl,
    native_path_taken sampleEnvNative samplePageUrl
      sampleTrackNative [sampleTcHq] rfl rfl rfl⟩

/-- True when the trace holds any media-byte fetch. -/
def hasMediaFetch (evs : List Event) : Bool :=
  evs.any (fun ev =>
    match ev with
    | .mediaFetch _ => true
    | _ => false)

/-- C7: a non-2xx response to the track-resolution request makes
`downloadTrack` fail immediately with the request-failure error of the
resolve endpoint: the trace is the single resolve request, so no rendition
is selected and no media bytes are fetched. -/
theorem resolve_failure_aborts (env : Env) (trackUrl : String) (status : Nat)
    (hres : env.resolveResp trackUrl = Except.error status) :
    downloadTrack env trackUrl =
      (Except.error (JsError.requestFailed resolveEndpoint status),
        [Event.apiRequest resolveEndpoint (resolveAuthToken env)
          [("client_id", env.clientId), ("url", trackUrl)]]) ∧
    hasMediaFetch (downloadTrack env trackUrl).2 = false := by
  refine ⟨by simp [downloadTrack, hres], ?_⟩
  simp [downloadTrack, hres, hasMediaFetch]

/-- Environment whose resolve endpoint answers HTTP 404. -/
def sampleEnv404 : Env :=
  { sampleEnv with resolveResp := fun _ => Except.error 404 }

theorem resolve_failure_aborts_witness :
    sampleEnv404.resolveResp "https://soundcloud.com/a/b" = Except.error 404 ∧
    (downloadTrack sampleEnv404 "https://soundcloud.com/a/b" =
      (Except.error (JsError.requestFailed resolveEndpoint 404),
        [Event.apiRequest resolveEndpoint (resolveAuthToken sampleEnv404)
          [("client_id", sampleEnv404.clientId), ("url", "https://soundcloud.com/a/b")]]) ∧
    hasMediaFetch (downloadTrack sampleEnv404 "https://soundcloud.com/a/b").2 = false) :=
  ⟨rfl, resolve_failure_aborts sampleEnv404 "https://soundcloud.com/a/b" 404 rfl⟩

lemma eventsAuthFree_downloadNative (env : Env) (trackId : Nat) :
    eventsAuthFree (downloadNative env trackId).2 = true := by
  unfold downloadNative
  cases env.nativeResp trackId <;> simp [eventsAuthFree]

lemma eventsAuthFree_downloadTrackTranscoding (env : Env) (trackObj : Track) :
    eventsAuthFree (downloadTrackTranscoding env trackObj none).2 = true := by
  unfold downloadTrackTranscoding
  cases hsel : selectTranscoding trackObj with
  | none => simp [eventsAuthFree]
  | some tc =>
    cases hresp : env.transcodingResp tc.url with
    | error s => simp [eventsAuthFree, hresp]
    | ok u =>
      by_cases hok : env.mediaOk u.href <;> simp [eventsAuthFree, hresp, hok]

lemma downloadTrack_cookieStore_hqOff (env : Env) (store : String) (trackUrl : String)
    (h : env.enableHQ = false) :
    downloadTrack { env with cookieStore := store } trackUrl = downloadTrack env trackUrl := by
  have h1 : resolveAuthToken { env with cookieStore := store } = none := by
    simp [resolveAuthToken, h]
  have h2 : resolveAuthToken env = none := by
    simp [resolveAuthToken, h]
  unfold downloadTrack
  rw [h1, h2]
  exact rfl

/-- C8: when the enable-high-quality preference is off, a download action
sends exactly the same requests whatever the browser's cookie store holds
(the session token read by `getCookie` is never transmitted), and no
request of the action carries an auth token. -/
theorem hq_disabled_cookie_noninterference (env : Env) (trackUrl : String)
    (store1 store2 : String) (h : env.enableHQ = false) :
    downloadTrack { env with cookieStore := store1 } trackUrl =
      downloadTrack { env with cookieStore := store2 } trackUrl ∧
    eventsAuthFree (downloadTrack env trackUrl).2 = true := by
  constructor
  · exact (downloadTrack_cookieStore_hqOff env store1 trackUrl h).trans
      (downloadTrack_cookieStore_hqOff env store2 trackUrl h).symm
  · have htok : resolveAuthToken env = none := by simp [resolveAuthToken, h]
    unfold downloadTrack
    rw [htok]
    cases hres : env.resolveResp trackUrl with
    | error s => simp [eventsAuthFree]
    | ok trackObj =>
      by_cases hflag : trackObj.downloadable && trackObj.has_downloads_left
      · simpa [eventsAuthFree, hflag] using eventsAuthFree_downloadNative env trackObj.id
      · simpa [eventsAuthFree, hflag] using
          eventsAuthFree_downloadTrackTranscoding env trackObj

theorem hq_disabled_cookie_noninterference_witness :
    sampleEnv.enableHQ = false ∧
    (downloadTrack { sampleEnv with cookieStore := "oauth_token=AAA" } samplePageUrl =
      downloadTrack { sampleEnv with cookieStore := "" } samplePageUrl ∧
    eventsAuthFree (downloadTrack sampleEnv samplePageUrl).2 = true) :=
  ⟨rfl, hq_disabled_cookie_noninterference sampleEnv samplePageUrl
    "oauth_token=AAA" "" rfl⟩

/-- C9: a download action that reaches the fetch stage — the track
resolves, does not take the native path, a transcoding is selected, and
its metadata request yields the final URL — fetches that final
byte-serving URL exactly once. -/
theorem final_url_fetched_once (env : Env) (trackUrl : String) (trackObj : Track)
    (tc : Transcoding) (fu : Url)
    (hres : env.resolveResp trackUrl = Except.ok trackObj)
    (hflags : (trackObj.downloadable && trackObj.has_downloads_left) = false)
    (hpick : selectTranscoding trackObj = some tc)
    (hresp : env.transcodingResp tc.url = Except.ok fu) :
    countMediaFetch fu.href (downloadTrack env trackUrl).2 = 1 := by
  simp only [downloadTrack, hres, hflags, downloadTrackTranscoding, hpick, hresp,
    Bool.false_eq_true, if_false]
  by_cases hok : env.mediaOk fu.href <;> simp [countMediaFetch, hok]

theorem final_url_fetched_once_witness :
    sampleEnv.resolveResp samplePageUrl = Except.ok sampleTrackSq ∧
    (sampleTrackSq.downloadable && sampleTrackSq.has_downloads_left) = false ∧
    selectTranscoding sampleTrackSq = some sampleTcSq2 ∧
    sampleEnv.transcodingResp sampleTcSq2.url = Except.ok sampleFinalUrl ∧
    countMediaFetch sampleFinalUrl.href (downloadTrack sampleEnv samplePageUrl).2 = 1 :=
  ⟨rfl, rfl, rfl, rfl,
    final_url_fetched_once sampleEnv samplePageUrl sampleTrackSq sampleTcSq2
      sampleFinalUrl rfl rfl rfl rfl⟩

/-- C10: on the native path the API request is issued with a null auth
token even when the HQ preference is on and a session cookie is present:
the resolve request carries the token, the native request does not. -/
theorem native_request_unauthenticated (env : Env) (trackUrl : String) (trackObj : Track)
    (tok redirect : String)
    (hres : env.resolveResp trackUrl = Except.ok trackObj)
    (hdl : trackObj.downloadable = true)
    (hleft : trackObj.has_downloads_left = true)
    (hhq : env.enableHQ = true)
    (hcookie : getCookie "oauth_token" env.cookieStore = some tok)
    (hnative : env.nativeResp trackObj.id = Except.ok redirect) :
    (downloadTrack env trackUrl).2 =
      [ Event.apiRequest resolveEndpoint (some tok)
          [("client_id", env.clientId), ("url", trackUrl)]
      , Event.apiRequest (nativeEndpoint trackObj.id) none [("client_id", env.clientId)]
      , Event.saveUrl redirect ] := by
  simp [downloadTrack, resolveAuthToken, hhq, hcookie, hres, hdl, hleft,
    downloadNative, hnative]

/-- Variant of `sampleEnvNative` with the HQ preference on and a session cookie set. -/
def sampleEnvNativeHq : Env :=
  { sampleEnvNative with enableHQ := true, cookieStore := "oauth_token=SECRET" }

theorem native_request_unauthenticated_witness :
    sampleEnvNativeHq.resolveResp samplePageUrl = Except.ok sampleTrackNative ∧
    sampleTrackNative.downloadable = true ∧
    sampleTrackNative.has_downloads_left = true ∧
    sampleEnvNativeHq.enableHQ = true ∧
    getCookie "oauth_token" sampleEnvNativeHq.cookieStore = some "SECRET" ∧
    sampleEnvNativeHq.nativeResp sampleTrackNative.id = Except.ok "https://cdn/native" ∧
    (downloadTrack sampleEnvNativeHq samplePageUrl).2 =
      [ Event.apiRequest resolveEndpoint (some "SECRET")
          [("client_id", sampleEnvNativeHq.clientId), ("url", samplePageUrl)]
      , Event.apiRequest (nativeEndpoint sampleTrackNative.id)
          none [("client_id", sampleEnvNativeHq.clientId)]
      , Event.saveUrl "https://cdn/native" ] :=
  ⟨rfl, rfl, rfl, rfl, by decide, rfl,
    native_request_unauthenticated sampleEnvNativeHq samplePageUrl sampleTrackNative
      "SECRET" "https://cdn/native" rfl rfl rfl rfl (by decide) rfl⟩

/-- C6: `scrapeClientId` walks the page's script resources in order and
returns the first token extracted by the client-ID pattern (inline scripts
and failed fetches contribute nothing); when no script yields a token it
fails with the credential-not-found error. -/
theorem scrapeClientId_first_match (scripts : List Script) :
    scrapeClientId scripts =
      match scripts.findSome? scriptToken with
      | some tok => Except.ok tok
      | none => Except.error JsError.credentialNotFound := by
  induction scripts with
  | nil => rfl
  | cons s rest ih =>
    by_cases hsrc : s.src = ""
    · simp [scrapeClientId, hsrc, List.findSome?_cons, scriptToken, ih]
    · cases hf : s.fetchResult with
      | none => simp [scrapeClientId, hsrc, List.findSome?_cons, scriptToken, hf, ih]
      | some text =>
        cases hm : findClientId text.data with
        | none => simp [scrapeClientId, hsrc, List.findSome?_cons, scriptToken, hf, hm, ih]
        | some tok => simp [scrapeClientId, hsrc, List.findSome?_cons, scriptToken, hf, hm]

end Sc2mp3
